import Mathlib

/-!
Shallow embedding of the RPC resilience core of the Kinetic CLI
(`src/index.ts`, `src/config.ts`): the retry executor `retryOperation`,
the history scanner `findFirstSignature`, the timestamp resolver
`fetchBlockTime`, the endpoint failover loop of `main`, and the endpoint
list construction `getEffectiveRpcEndpoints`.

Asynchronous calls are modelled by pure oracles indexed by invocation
number; sleeps are recorded as a list of computed delays; thrown JS
exceptions become `Except` errors.  JS truthiness of strings is modelled
faithfully: `if (s)` on a `string | undefined` value is false both for
`undefined` and for the empty string.
-/

namespace Kinetic

/-- One entry of a history page, as returned by `getSignaturesForAddress`
(`ConfirmedSignatureInfo` of `@solana/web3.js`; only the fields the core
reads are modelled). -/
structure ConfirmedSignatureInfo where
  signature : String
  slot : Nat
  blockTime : Option Int
deriving Repr, DecidableEq

/-- The transaction record returned by `getTransaction`
(`VersionedTransactionResponse`; only the fields the core reads). -/
structure VersionedTransactionResponse where
  slot : Nat
  blockTime : Option Int
deriving Repr, DecidableEq

/-- `RetryConfig` from `src/config.ts`. -/
structure RetryConfig where
  attempts : Nat
  initialDelayMs : Nat
  maxDelayMs : Nat
deriving Repr, DecidableEq

/-- `getRetryDelay` from `src/config.ts`:
`Math.min(initialDelayMs * Math.pow(2, attempt), maxDelayMs)`. -/
def getRetryDelay (attempt initialDelayMs maxDelayMs : Nat) : Nat :=
  min (initialDelayMs * 2 ^ attempt) maxDelayMs

/-- The error taxonomy of `src/errors.ts` (its full text sits at the end of
`src/dist/index.js`, headed `// src/errors.ts`): every class extends the JS
`Error`-derived base `AppError`.  Each constructor here carries the data its
class keeps — the `public readonly` fields plus, where the class constructor
takes an optional `message`, that argument: `NoSignaturesFoundError(programId,
message?)`, `TransactionNotFoundError(signature, message?)`,
`MissingBlockTimeError(signature)`, `RpcMaxRetriesError(operation,
originalError?)`, `InvalidProgramIdError(programId, originalError?)` — the
last one stores only `programId`; its `originalError` argument feeds the
message text and is not stored.  `jsError` models a plain JS `Error` (or any
other message-carrying throwable) raised outside the taxonomy, e.g. by the
remote service, identified by its message. -/
inductive AppError where
  | noSignaturesFound (programId : String) (message : Option String)
  | transactionNotFound (signature : String) (message : Option String)
  | missingBlockTime (signature : String)
  | rpcMaxRetries (operation : String) (originalError : Option AppError)
  | invalidProgramId (programId : String)
  | jsError (message : String)
deriving Repr

/-- JS truthiness of a `string | undefined` value: `undefined` and the
empty string are falsy, every other string is truthy. -/
def truthyStr : Option String → Bool
  | none => false
  | some s => !(s == "")

/-- The `for` loop of `retryOperation` (`src/index.ts` lines 38-52).
`fn i` is the outcome of the `(i+1)`-th invocation of `operationFn`;
`attempt` is the current 0-based loop index, `remaining` the number of
iterations left, `lastError` the error saved by previous iterations.
Returns the loop outcome (`Except.error` = loop exhausted, carrying the
final `lastError`), the number of invocations of `operationFn` performed,
and the backoff sleeps performed, in order.  Each failed attempt computes
`getRetryDelay` and sleeps — also on the final attempt, since the sleep
sits inside the `catch` block. -/
def retryLoop (fn : Nat → Except AppError α) (d0 dmax : Nat) :
    Nat → Nat → Option AppError → Except (Option AppError) α × Nat × List Nat
  | _, 0, lastError => (Except.error lastError, 0, [])
  | attempt, remaining + 1, _ =>
    match fn attempt with
    | Except.ok v => (Except.ok v, 1, [])
    | Except.error e =>
      let d := getRetryDelay attempt d0 dmax
      let r := retryLoop fn d0 dmax (attempt + 1) remaining (some e)
      (r.1, r.2.1 + 1, d :: r.2.2)

/-- The final wrap of `retryOperation` (`src/index.ts` lines 53-54): a saved
`lastError` is rethrown as the cause (an `Error` instance keeps its message;
a non-`Error` throwable is wrapped into an `Error` with the same message, so
the modelled value is unchanged); when no attempt ever ran, `lastError` is
`null` and the code builds `new Error(String(null))`, i.e. message "null". -/
def wrapLastError : Option AppError → AppError
  | some e => e
  | none => AppError.jsError "null"

/-- `retryOperation` from `src/index.ts` (lines 32-56): run the retry loop
starting at attempt 0 with no saved error; if it exhausts its attempts,
fail with `RpcMaxRetriesError(operationName, wrapped lastError)`.  Returns
the outcome, the number of invocations of `operationFn`, and the list of
backoff sleeps. -/
def retryOperation (operationName : String) (fn : Nat → Except AppError α)
    (cfg : RetryConfig) : Except AppError α × Nat × List Nat :=
  match retryLoop fn cfg.initialDelayMs cfg.maxDelayMs 0 cfg.attempts none with
  | (Except.ok v, n, ds) => (Except.ok v, n, ds)
  | (Except.error le, n, ds) =>
    (Except.error (AppError.rpcMaxRetries operationName (some (wrapLastError le))),
      n, ds)

/-- The post-loop tail of `findFirstSignature` (`src/index.ts` lines
106-111): `if (!earliestSig) throw NoSignaturesFoundError(pid, 'Failed to
determine earliest signature after pagination attempts.')` — a JS
truthiness check, so an empty-string signature also takes the throw branch
— otherwise return `earliestSig`. -/
def finishScan (programId : String) (earliest : Option String) :
    Except AppError String :=
  match earliest with
  | some s =>
    if s = "" then
      Except.error (AppError.noSignaturesFound programId
        (some "Failed to determine earliest signature after pagination attempts."))
    else Except.ok s
  | none =>
    Except.error (AppError.noSignaturesFound programId
      (some "Failed to determine earliest signature after pagination attempts."))

/-- The `while` loop of `findFirstSignature` (`src/index.ts` lines 69-104),
abstracted over the sequence of pages the remote listing call serves, in
fetch order (each page fetch goes through `retryOperation`; here every
fetch is assumed to succeed, which is the situation claims about the
scanner's own control flow describe).  `earliest` models the mutable
`earliestSig : string | undefined`.  For an empty page: if `earliestSig`
is truthy the loop breaks (then the lines 106-111 tail runs), else
`NoSignaturesFoundError(pid)` is thrown.  For a nonempty page:
`earliestSig` becomes the last record's signature; a page shorter than
`limit` breaks the loop, otherwise the cursor advances and the next page
is fetched.  `none` means the supplied page sequence was exhausted while
the loop still wanted another page (the scan is not determined by the
given pages). -/
def findFirstSignatureLoop (programId : String) (limit : Nat) :
    List (List ConfirmedSignatureInfo) → Option String →
    Option (Except AppError String)
  | [], _ => none
  | page :: rest, earliest =>
    match page.getLast? with
    | none =>
      if truthyStr earliest then some (finishScan programId earliest)
      else some (Except.error (AppError.noSignaturesFound programId none))
    | some r =>
      if page.length < limit then some (finishScan programId (some r.signature))
      else findFirstSignatureLoop programId limit rest (some r.signature)

/-- `findFirstSignature` (`src/index.ts` lines 59-112) over a given
sequence of served pages: the loop starts with no cursor and
`earliestSig = undefined`. -/
def findFirstSignature (programId : String) (limit : Nat)
    (pages : List (List ConfirmedSignatureInfo)) :
    Option (Except AppError String) :=
  findFirstSignatureLoop programId limit pages none

/-- The `operationFn` passed to `retryOperation` by `fetchBlockTime`
(`src/index.ts` lines 123-132): call `connection.getTransaction`; a `null`
result is turned into a thrown `TransactionNotFoundError(signature, ...)`
(so an explicit absence is retried like any other failure).  `service i`
is the outcome of the `(i+1)`-th RPC call: per the remote-service contract
a failure is a rate-limit-shaped or generic error, carried as a message
string and thrown as a plain JS error. -/
def getTransactionOp (signature : String)
    (service : Nat → Except String (Option VersionedTransactionResponse))
    (i : Nat) : Except AppError VersionedTransactionResponse :=
  match service i with
  | Except.error m => Except.error (AppError.jsError m)
  | Except.ok none =>
    Except.error (AppError.transactionNotFound signature
      (some ("Transaction " ++ signature ++ " not found by RPC node.")))
  | Except.ok (some tx) => Except.ok tx

/-- `fetchBlockTime` (`src/index.ts` lines 115-143): obtain the
transaction through `retryOperation`; only after that succeeds, check
`tx.blockTime` and throw `MissingBlockTimeError(signature)` when it is
`null`/`undefined`.  Returns the outcome together with the number of
`getTransaction` invocations and the backoff sleeps performed. -/
def fetchBlockTime (signature : String)
    (service : Nat → Except String (Option VersionedTransactionResponse))
    (cfg : RetryConfig) : Except AppError Int × Nat × List Nat :=
  match retryOperation "getTransaction" (getTransactionOp signature service) cfg with
  | (Except.error e, n, ds) => (Except.error e, n, ds)
  | (Except.ok tx, n, ds) =>
    match tx.blockTime with
    | none => (Except.error (AppError.missingBlockTime signature), n, ds)
    | some t => (Except.ok t, n, ds)

/-- The two-step pipeline `main` runs against one endpoint (`src/index.ts`
lines 199-200): `findFirstSignature` for the endpoint's connection, then
`fetchBlockTime` on the signature it found.  `scan` and `resolve` abstract
the two steps' outcomes per endpoint URL. -/
def twoStepPipeline (scan : String → Except AppError String)
    (resolve : String → String → Except AppError Int) (url : String) :
    Except AppError Int :=
  match scan url with
  | Except.error e => Except.error e
  | Except.ok sig => resolve url sig

/-- The endpoint `for` loop of `main` (`src/index.ts` lines 192-215):
try each URL in order; on the first success print and exit (modelled as
`Except.ok` of the timestamp); on failure save it as `overallLastError`
and continue.  Returns the loop outcome (`Except.error` carries the final
`overallLastError`, `null` when no endpoint was tried) together with the
list of endpoints attempted, in order. -/
def endpointLoop (pipeline : String → Except AppError Int) :
    List String → Option AppError →
    Except (Option AppError) Int × List String
  | [], lastErr => (Except.error lastErr, [])
  | url :: rest, _ =>
    match pipeline url with
    | Except.ok t => (Except.ok t, [url])
    | Except.error e =>
      let r := endpointLoop pipeline rest (some e)
      (r.1, url :: r.2)

/-- The terminal failure of `main` when every endpoint failed
(`src/index.ts` lines 217-230): the fatal "All configured RPC endpoints
failed" report citing `overallLastError`, followed by `process.exit(1)`.
The spec's name for this outcome is `AllEndpointsFailed{lastFailure}`. -/
inductive FailoverFailure where
  | allEndpointsFailed (lastFailure : Option AppError)
deriving Repr

/-- The endpoint failover controller of `main` (`src/index.ts` lines
192-230), the spec's `resolveFirstTimestamp`: run the endpoint loop with
no saved error; if it exhausts the list, fail with
`AllEndpointsFailed{overallLastError}`.  Also returns the endpoints
attempted, in order. -/
def resolveFirstTimestamp (pipeline : String → Except AppError Int)
    (endpoints : List String) : Except FailoverFailure Int × List String :=
  match endpointLoop pipeline endpoints none with
  | (Except.ok t, tried) => (Except.ok t, tried)
  | (Except.error le, tried) =>
    (Except.error (FailoverFailure.allEndpointsFailed le), tried)

/-- The configuration fields `getEffectiveRpcEndpoints` reads
(`src/config.ts`): the fixed default endpoint list and the optional
dedicated (Helius) endpoint derived from the environment. -/
structure AppConfigEndpoints where
  defaultRpcEndpoints : List String
  heliusRpcUrl : Option String
deriving Repr, DecidableEq

/-- `getEffectiveRpcEndpoints` (`src/config.ts` lines 114-123):
`if (customEndpoint) return [customEndpoint];` — the override, when
truthy, replaces the whole list; otherwise, if a truthy dedicated endpoint
is configured, it is put first followed by the defaults with any duplicate
of it filtered out; otherwise the defaults are returned.  The two `if`s
are JS truthiness tests, so an empty-string value counts as absent. -/
def getEffectiveRpcEndpoints (cfg : AppConfigEndpoints)
    (customEndpoint : Option String) : List String :=
  if truthyStr customEndpoint then [customEndpoint.getD ""]
  else if truthyStr cfg.heliusRpcUrl then
    (cfg.heliusRpcUrl.getD "") ::
      cfg.defaultRpcEndpoints.filter (fun url => url != cfg.heliusRpcUrl.getD "")
  else cfg.defaultRpcEndpoints

section RetryLemmas

variable {α : Type}

/-- The backoff sleeps a run of failing attempts performs, starting at
0-based attempt index `attempt`: one `getRetryDelay` per failure, with the
exponent advancing by one each time. -/
def delaysFrom (d0 dmax : Nat) : Nat → Nat → List Nat
  | _, 0 => []
  | attempt, n + 1 =>
    getRetryDelay attempt d0 dmax :: delaysFrom d0 dmax (attempt + 1) n

lemma delaysFrom_eq_map (d0 dmax : Nat) :
    ∀ (n attempt : Nat), delaysFrom d0 dmax attempt n =
      (List.range n).map (fun i => getRetryDelay (attempt + i) d0 dmax) := by
  intro n
  induction n with
  | zero => intro attempt; rfl
  | succ n ih =>
    intro attempt
    rw [List.range_succ_eq_map, List.map_cons, List.map_map]
    show getRetryDelay attempt d0 dmax :: delaysFrom d0 dmax (attempt + 1) n = _
    rw [ih (attempt + 1)]
    refine congrArg₂ _ (by rw [Nat.add_zero]) ?_
    apply List.map_congr_left
    intro a _
    show getRetryDelay (attempt + 1 + a) d0 dmax = getRetryDelay (attempt + (a + 1)) d0 dmax
    have h : attempt + 1 + a = attempt + (a + 1) := by omega
    rw [h]

/-- One loop iteration whose invocation succeeds. -/
lemma retryLoop_cons_ok {fn : Nat → Except AppError α} {attempt : Nat} {v : α}
    (d0 dmax s : Nat) (le : Option AppError) (h : fn attempt = Except.ok v) :
    retryLoop fn d0 dmax attempt (s + 1) le = (Except.ok v, 1, []) := by
  simp [retryLoop, h]

/-- One loop iteration whose invocation fails: save the error, sleep, and
continue with the next attempt index. -/
lemma retryLoop_cons_error {fn : Nat → Except AppError α} {attempt : Nat}
    {e : AppError} (d0 dmax s : Nat) (le : Option AppError)
    (h : fn attempt = Except.error e) :
    retryLoop fn d0 dmax attempt (s + 1) le =
      ((retryLoop fn d0 dmax (attempt + 1) s (some e)).1,
        (retryLoop fn d0 dmax (attempt + 1) s (some e)).2.1 + 1,
        getRetryDelay attempt d0 dmax ::
          (retryLoop fn d0 dmax (attempt + 1) s (some e)).2.2) := by
  simp [retryLoop, h]

/-- Exhausted loop: when every invocation fails, `r + 1` remaining
iterations perform `r + 1` calls, save the error of the last attempt, and
sleep once per failed attempt. -/
lemma retryLoop_allFail (fn : Nat → Except AppError α) (errf : Nat → AppError)
    (d0 dmax : Nat) (hf : ∀ i, fn i = Except.error (errf i)) :
    ∀ (r attempt : Nat) (le : Option AppError),
      retryLoop fn d0 dmax attempt (r + 1) le =
        (Except.error (some (errf (attempt + r))), r + 1,
          delaysFrom d0 dmax attempt (r + 1)) := by
  intro r
  induction r with
  | zero =>
    intro attempt le
    rw [retryLoop_cons_error d0 dmax 0 le (hf attempt)]
    simp [retryLoop, delaysFrom]
  | succ r ih =>
    intro attempt le
    have h : attempt + 1 + r = attempt + (r + 1) := by omega
    rw [retryLoop_cons_error d0 dmax (r + 1) le (hf attempt),
      ih (attempt + 1) (some (errf attempt)), h]
    rfl

/-- Successful loop: when the first `k` invocations fail and the
`(k+1)`-th succeeds within the remaining budget, the loop returns that
success after `k + 1` calls and `k` sleeps. -/
lemma retryLoop_succeeds (fn : Nat → Except AppError α) (errf : Nat → AppError)
    (d0 dmax : Nat) (v : α) :
    ∀ (k attempt remaining : Nat) (le : Option AppError),
      (∀ i, i < k → fn (attempt + i) = Except.error (errf (attempt + i))) →
      fn (attempt + k) = Except.ok v → k < remaining →
      retryLoop fn d0 dmax attempt remaining le =
        (Except.ok v, k + 1, delaysFrom d0 dmax attempt k) := by
  intro k
  induction k with
  | zero =>
    intro attempt remaining le _ hok hlt
    obtain ⟨s, rfl⟩ : ∃ s, remaining = s + 1 := ⟨remaining - 1, by omega⟩
    rw [Nat.add_zero] at hok
    rw [retryLoop_cons_ok d0 dmax s le hok]
    rfl
  | succ k ih =>
    intro attempt remaining le hfail hok hlt
    obtain ⟨s, rfl⟩ : ∃ s, remaining = s + 1 := ⟨remaining - 1, by omega⟩
    have h0 : fn attempt = Except.error (errf attempt) := by
      have := hfail 0 (Nat.succ_pos k)
      simpa using this
    rw [retryLoop_cons_error d0 dmax s le h0,
      ih (attempt + 1) s (some (errf attempt))
        (fun i hi => by
          have := hfail (i + 1) (by omega)
          simpa [Nat.add_assoc, Nat.add_comm 1 i, Nat.add_left_comm] using this)
        (by simpa [Nat.add_assoc, Nat.add_comm 1 k, Nat.add_left_comm] using hok)
        (by omega)]
    rfl

/-- The loop's call count, sleep schedule, and success/failure of its
outcome depend only on which invocations succeed, not on the error
values the failing invocations carry. -/
lemma retryLoop_pattern (fn gn : Nat → Except AppError α) (d0 dmax : Nat)
    (hp : ∀ i, (fn i).isOk = (gn i).isOk) :
    ∀ (remaining attempt : Nat) (le₁ le₂ : Option AppError),
      (retryLoop fn d0 dmax attempt remaining le₁).2.1 =
          (retryLoop gn d0 dmax attempt remaining le₂).2.1
        ∧ (retryLoop fn d0 dmax attempt remaining le₁).2.2 =
          (retryLoop gn d0 dmax attempt remaining le₂).2.2
        ∧ (retryLoop fn d0 dmax attempt remaining le₁).1.isOk =
          (retryLoop gn d0 dmax attempt remaining le₂).1.isOk := by
  intro remaining
  induction remaining with
  | zero =>
    intro attempt le₁ le₂
    exact ⟨rfl, rfl, rfl⟩
  | succ s ih =>
    intro attempt le₁ le₂
    have hpa := hp attempt
    cases h1 : fn attempt with
    | ok v =>
      cases h2 : gn attempt with
      | ok w =>
        rw [retryLoop_cons_ok d0 dmax s le₁ h1, retryLoop_cons_ok d0 dmax s le₂ h2]
        exact ⟨rfl, rfl, rfl⟩
      | error e =>
        rw [h1, h2] at hpa
        exact absurd hpa (by simp [Except.isOk, Except.toBool])
    | error e =>
      cases h2 : gn attempt with
      | ok w =>
        rw [h1, h2] at hpa
        exact absurd hpa (by simp [Except.isOk, Except.toBool])
      | error e' =>
        have hrec := ih (attempt + 1) (some e) (some e')
        rw [retryLoop_cons_error d0 dmax s le₁ h1,
          retryLoop_cons_error d0 dmax s le₂ h2]
        exact ⟨by rw [hrec.1], by rw [hrec.1, hrec.2.1], hrec.2.2⟩

/-- A failure on any of the first `m` attempts, with budget to spare,
never ends the loop: at least `m + 1` calls are performed. -/
lemma retryLoop_count_ge (fn : Nat → Except AppError α) (d0 dmax : Nat) :
    ∀ (m attempt remaining : Nat) (le : Option AppError),
      (∀ i, i < m → (fn (attempt + i)).isOk = false) → m < remaining →
      m + 1 ≤ (retryLoop fn d0 dmax attempt remaining le).2.1 := by
  intro m
  induction m with
  | zero =>
    intro attempt remaining le _ hlt
    obtain ⟨s, rfl⟩ : ∃ s, remaining = s + 1 := ⟨remaining - 1, by omega⟩
    cases h1 : fn attempt with
    | ok v => rw [retryLoop_cons_ok d0 dmax s le h1]
    | error e =>
      rw [retryLoop_cons_error d0 dmax s le h1]
      show 0 + 1 ≤ (retryLoop fn d0 dmax (attempt + 1) s (some e)).2.1 + 1
      omega
  | succ m ih =>
    intro attempt remaining le hfail hlt
    obtain ⟨s, rfl⟩ : ∃ s, remaining = s + 1 := ⟨remaining - 1, by omega⟩
    have h0 : (fn attempt).isOk = false := by
      have := hfail 0 (Nat.succ_pos m)
      simpa using this
    cases h1 : fn attempt with
    | ok v =>
      rw [h1] at h0
      exact absurd h0 (by simp [Except.isOk, Except.toBool])
    | error e =>
      have hrec := ih (attempt + 1) s (some e)
        (fun i hi => by
          have := hfail (i + 1) (by omega)
          simpa [Nat.add_assoc, Nat.add_comm 1 i, Nat.add_left_comm] using this)
        (by omega)
      rw [retryLoop_cons_error d0 dmax s le h1]
      show m + 1 + 1 ≤ (retryLoop fn d0 dmax (attempt + 1) s (some e)).2.1 + 1
      omega

end RetryLemmas

section ScanLemmas

/-- The value `earliestSig` holds after processing a prefix of pages:
each nonempty page overwrites it with its last record's signature. -/
def accAfter : List (List ConfirmedSignatureInfo) → Option String → Option String
  | [], acc => acc
  | p :: ps, acc =>
    accAfter ps (match p.getLast? with
      | none => acc
      | some r => some r.signature)

lemma mem_of_getLast?_eq {β : Type} {l : List β} {a : β}
    (h : l.getLast? = some a) : a ∈ l := by
  obtain ⟨h', rfl⟩ := List.mem_getLast?_eq_getLast (Option.mem_def.mpr h)
  exact List.getLast_mem h'

/-- Full pages (nonempty, not shorter than the limit) only advance the
cursor and update `earliestSig`; the scan continues on the remaining
pages. -/
lemma findFirstSignatureLoop_skip_full_pages (programId : String) (limit : Nat) :
    ∀ (fps rest : List (List ConfirmedSignatureInfo)) (acc : Option String),
      (∀ p ∈ fps, p.getLast? ≠ none ∧ ¬ p.length < limit) →
      findFirstSignatureLoop programId limit (fps ++ rest) acc =
        findFirstSignatureLoop programId limit rest (accAfter fps acc) := by
  intro fps
  induction fps with
  | nil => intro rest acc _; rfl
  | cons p ps ih =>
    intro rest acc hfull
    obtain ⟨hne, hlen⟩ := hfull p (List.mem_cons_self p ps)
    obtain ⟨r, hr⟩ : ∃ r, p.getLast? = some r := by
      cases h : p.getLast? with
      | none => exact absurd h hne
      | some r => exact ⟨r, rfl⟩
    show findFirstSignatureLoop programId limit (p :: (ps ++ rest)) acc = _
    rw [findFirstSignatureLoop, hr]
    simp only [if_neg hlen]
    rw [ih rest (some r.signature) (fun q hq => hfull q (List.mem_cons_of_mem p hq))]
    have : accAfter (p :: ps) acc = accAfter ps (some r.signature) := by
      show accAfter ps _ = _
      rw [hr]
    rw [this]

/-- After a nonempty run of nonempty pages, `earliestSig` holds the last
record of the last page, whatever it held before. -/
lemma accAfter_getLast :
    ∀ (fps : List (List ConfirmedSignatureInfo)) (acc : Option String)
      (lp : List ConfirmedSignatureInfo) (r : ConfirmedSignatureInfo),
      (∀ p ∈ fps, p.getLast? ≠ none) → fps.getLast? = some lp →
      lp.getLast? = some r → accAfter fps acc = some r.signature := by
  intro fps
  induction fps with
  | nil => intro acc lp r _ hlast; simp at hlast
  | cons p ps ih =>
    intro acc lp r hne hlast hlp
    cases ps with
    | nil =>
      have hp : p = lp := by simpa using hlast
      subst hp
      show accAfter [] _ = _
      rw [hlp]
      rfl
    | cons q qs =>
      have hlast' : (q :: qs).getLast? = some lp := by
        rw [← List.getLast?_cons_cons]
        exact hlast
      obtain ⟨rp, hrp⟩ : ∃ rp, p.getLast? = some rp := by
        cases h : p.getLast? with
        | none => exact absurd h (hne p (List.mem_cons_self p (q :: qs)))
        | some rp => exact ⟨rp, rfl⟩
      show accAfter (q :: qs) _ = _
      rw [hrp]
      exact ih (some rp.signature) lp r
        (fun x hx => hne x (List.mem_cons_of_mem p hx)) hlast' hlp

end ScanLemmas

section FailoverLemmas

/-- One iteration of the endpoint loop on a succeeding endpoint. -/
lemma endpointLoop_cons_ok {pipeline : String → Except AppError Int}
    {u : String} {t : Int} (rest : List String) (le : Option AppError)
    (h : pipeline u = Except.ok t) :
    endpointLoop pipeline (u :: rest) le = (Except.ok t, [u]) := by
  simp [endpointLoop, h]

/-- One iteration of the endpoint loop on a failing endpoint: record the
failure and continue with the rest of the list. -/
lemma endpointLoop_cons_error {pipeline : String → Except AppError Int}
    {u : String} {e : AppError} (rest : List String) (le : Option AppError)
    (h : pipeline u = Except.error e) :
    endpointLoop pipeline (u :: rest) le =
      ((endpointLoop pipeline rest (some e)).1,
        u :: (endpointLoop pipeline rest (some e)).2) := by
  simp [endpointLoop, h]

/-- When every endpoint of the list fails, the loop tries all of them in
order and ends carrying the last endpoint's error (or the incoming saved
error if the list is empty). -/
lemma endpointLoop_allFail (pipeline : String → Except AppError Int)
    (errf : String → AppError) :
    ∀ (endpoints : List String) (le : Option AppError),
      (∀ e ∈ endpoints, pipeline e = Except.error (errf e)) →
      endpointLoop pipeline endpoints le =
        (Except.error (match endpoints.getLast? with
          | none => le
          | some l => some (errf l)), endpoints) := by
  intro endpoints
  induction endpoints with
  | nil => intro le _; rfl
  | cons u rest ih =>
    intro le hall
    have hu : pipeline u = Except.error (errf u) := hall u (List.mem_cons_self u rest)
    rw [endpointLoop_cons_error rest le hu,
      ih (some (errf u)) (fun x hx => hall x (List.mem_cons_of_mem u hx))]
    cases rest with
    | nil => rfl
    | cons v vs =>
      rw [List.getLast?_cons_cons]
      cases hl : (v :: vs).getLast? with
      | none => simp at hl
      | some l => rfl

/-- A prefix of failing endpoints is attempted and skipped; the loop
continues on the rest with the last failure saved. -/
lemma endpointLoop_skip_failing (pipeline : String → Except AppError Int)
    (errf : String → AppError) :
    ∀ (pre rest : List String) (le : Option AppError),
      (∀ e ∈ pre, pipeline e = Except.error (errf e)) →
      endpointLoop pipeline (pre ++ rest) le =
        ((endpointLoop pipeline rest (match pre.getLast? with
            | none => le
            | some l => some (errf l))).1,
          pre ++ (endpointLoop pipeline rest (match pre.getLast? with
            | none => le
            | some l => some (errf l))).2) := by
  intro pre
  induction pre with
  | nil => intro rest le _; rfl
  | cons u pre' ih =>
    intro rest le hall
    have hu : pipeline u = Except.error (errf u) := hall u (List.mem_cons_self u pre')
    show endpointLoop pipeline (u :: (pre' ++ rest)) le = _
    rw [endpointLoop_cons_error (pre' ++ rest) le hu,
      ih rest (some (errf u)) (fun x hx => hall x (List.mem_cons_of_mem u hx))]
    cases pre' with
    | nil => rfl
    | cons v vs =>
      rw [List.getLast?_cons_cons]
      cases hl : (v :: vs).getLast? with
      | none => simp at hl
      | some l => rfl

end FailoverLemmas

section RetryBridge

variable {α : Type}

/-- A loop success is returned by `retryOperation` unchanged. -/
lemma retryOperation_of_loop_ok {fn : Nat → Except AppError α}
    {cfg : RetryConfig} {v : α} {n : Nat} {ds : List Nat} (name : String)
    (h : retryLoop fn cfg.initialDelayMs cfg.maxDelayMs 0 cfg.attempts none =
      (Except.ok v, n, ds)) :
    retryOperation name fn cfg = (Except.ok v, n, ds) := by
  unfold retryOperation
  rw [h]

/-- A loop exhaustion is wrapped by `retryOperation` into
`RpcMaxRetriesError(name, lastError)`. -/
lemma retryOperation_of_loop_error {fn : Nat → Except AppError α}
    {cfg : RetryConfig} {le : Option AppError} {n : Nat} {ds : List Nat}
    (name : String)
    (h : retryLoop fn cfg.initialDelayMs cfg.maxDelayMs 0 cfg.attempts none =
      (Except.error le, n, ds)) :
    retryOperation name fn cfg =
      (Except.error (AppError.rpcMaxRetries name (some (wrapLastError le))),
        n, ds) := by
  unfold retryOperation
  rw [h]

/-- `retryOperation` changes neither the call count, nor the sleep list,
nor whether the outcome is a success, relative to its loop. -/
lemma retryOperation_proj (name : String) (fn : Nat → Except AppError α)
    (cfg : RetryConfig) :
    (retryOperation name fn cfg).2.1 =
        (retryLoop fn cfg.initialDelayMs cfg.maxDelayMs 0 cfg.attempts none).2.1
      ∧ (retryOperation name fn cfg).2.2 =
        (retryLoop fn cfg.initialDelayMs cfg.maxDelayMs 0 cfg.attempts none).2.2
      ∧ (retryOperation name fn cfg).1.isOk =
        (retryLoop fn cfg.initialDelayMs cfg.maxDelayMs 0 cfg.attempts none).1.isOk := by
  unfold retryOperation
  cases hres : retryLoop fn cfg.initialDelayMs cfg.maxDelayMs 0 cfg.attempts none with
  | mk res rest =>
    obtain ⟨n, ds⟩ := rest
    cases res with
    | ok v => exact ⟨rfl, rfl, rfl⟩
    | error le => exact ⟨rfl, rfl, rfl⟩

end RetryBridge

/-- C2: for every `operationFn` that fails on every invocation and every
policy with `attempts = N ≥ 1`, `retryOperation` invokes `operationFn`
exactly `N` times and then fails with `RpcMaxRetriesError` carrying the
operation name and wrapping the last underlying error as its cause —
never the raw underlying error itself. -/
theorem execute_allFail_wraps_last_error (α : Type) (operationName : String)
    (cfg : RetryConfig) (errf : Nat → AppError) (h : 1 ≤ cfg.attempts) :
    (retryOperation operationName
        (fun i => (Except.error (errf i) : Except AppError α)) cfg).1
      = Except.error
          (AppError.rpcMaxRetries operationName (some (errf (cfg.attempts - 1))))
    ∧ (retryOperation operationName
        (fun i => (Except.error (errf i) : Except AppError α)) cfg).2.1
      = cfg.attempts := by
  obtain ⟨r, hr⟩ : ∃ r, cfg.attempts = r + 1 := ⟨cfg.attempts - 1, by omega⟩
  have hloop :
      retryLoop (fun i => (Except.error (errf i) : Except AppError α))
          cfg.initialDelayMs cfg.maxDelayMs 0 cfg.attempts none =
        (Except.error (some (errf (0 + r))), r + 1,
          delaysFrom cfg.initialDelayMs cfg.maxDelayMs 0 (r + 1)) := by
    rw [hr]
    exact retryLoop_allFail _ errf _ _ (fun i => rfl) r 0 none
  rw [retryOperation_of_loop_error operationName hloop]
  refine ⟨?_, by rw [hr]⟩
  show Except.error
    (AppError.rpcMaxRetries operationName (some (errf (0 + r)))) = _
  rw [Nat.zero_add, hr]
  rfl

/-- Witness for C2 at a concrete always-failing operation and the
policy `{attempts = 5, initialDelayMs = 500, maxDelayMs = 8000}`. -/
theorem execute_allFail_wraps_last_error_witness :
    1 ≤ (RetryConfig.mk 5 500 8000).attempts
    ∧ (retryOperation "getSignaturesForAddress"
        (fun _ => (Except.error (AppError.jsError "429 Too Many Requests") :
          Except AppError Int)) (RetryConfig.mk 5 500 8000)).1
      = Except.error (AppError.rpcMaxRetries "getSignaturesForAddress"
          (some (AppError.jsError "429 Too Many Requests")))
    ∧ (retryOperation "getSignaturesForAddress"
        (fun _ => (Except.error (AppError.jsError "429 Too Many Requests") :
          Except AppError Int)) (RetryConfig.mk 5 500 8000)).2.1 = 5 := by
  have h := execute_allFail_wraps_last_error Int "getSignaturesForAddress"
    (RetryConfig.mk 5 500 8000)
    (fun _ => AppError.jsError "429 Too Many Requests") (by decide)
  exact ⟨by decide, h.1, h.2⟩

/-- C3: for every `operationFn` that fails exactly `k` times and then
succeeds, and every policy with `attempts > k`, `retryOperation` returns
the success value of the `(k+1)`-th invocation after exactly `k + 1`
invocations. -/
theorem execute_eventual_success (α : Type) (operationName : String)
    (cfg : RetryConfig) (fn : Nat → Except AppError α) (errf : Nat → AppError)
    (k : Nat) (v : α) (hfail : ∀ i, i < k → fn i = Except.error (errf i))
    (hok : fn k = Except.ok v) (hk : k < cfg.attempts) :
    (retryOperation operationName fn cfg).1 = Except.ok v
    ∧ (retryOperation operationName fn cfg).2.1 = k + 1 := by
  have hloop := retryLoop_succeeds fn errf cfg.initialDelayMs cfg.maxDelayMs v
    k 0 cfg.attempts none (fun i hi => by simpa using hfail i hi)
    (by simpa using hok) hk
  rw [retryOperation_of_loop_ok operationName hloop]
  exact ⟨rfl, rfl⟩

/-- Witness for C3: an operation failing twice and succeeding on the third
invocation, under a 5-attempt policy. -/
theorem execute_eventual_success_witness :
    (2 : Nat) < (RetryConfig.mk 5 500 8000).attempts
    ∧ (retryOperation "getTransaction"
        (fun i => if i < 2 then (Except.error (AppError.jsError "boom") :
          Except AppError Int) else Except.ok 1700000000)
        (RetryConfig.mk 5 500 8000)).1 = Except.ok 1700000000
    ∧ (retryOperation "getTransaction"
        (fun i => if i < 2 then (Except.error (AppError.jsError "boom") :
          Except AppError Int) else Except.ok 1700000000)
        (RetryConfig.mk 5 500 8000)).2.1 = 3 := by
  have h := execute_eventual_success Int "getTransaction"
    (RetryConfig.mk 5 500 8000)
    (fun i => if i < 2 then (Except.error (AppError.jsError "boom") :
      Except AppError Int) else Except.ok 1700000000)
    (fun _ => AppError.jsError "boom") 2 1700000000
    (fun i hi => by simp [hi]) (by simp) (by decide)
  exact ⟨by decide, h.1, h.2⟩

/-- C4: the retry executor treats every failure as retryable and its
retry/no-retry decision is independent of the failure's kind or message:
a failure on any non-final attempt is followed by a further invocation,
and replacing the errors of a run by arbitrary other errors (same
invocations succeeding) changes neither the invocation count, nor the
sleep schedule, nor whether the overall outcome is a success. -/
theorem execute_retry_kind_independent (α : Type)
    (operationName₁ operationName₂ : String) (cfg : RetryConfig)
    (fn gn : Nat → Except AppError α) (errf : Nat → AppError) (j : Nat)
    (hfail : ∀ i, i ≤ j → fn i = Except.error (errf i))
    (hpat : ∀ i, (fn i).isOk = (gn i).isOk) (hj : j + 1 < cfg.attempts) :
    j + 2 ≤ (retryOperation operationName₁ fn cfg).2.1
    ∧ (retryOperation operationName₁ fn cfg).2.1 =
        (retryOperation operationName₂ gn cfg).2.1
    ∧ (retryOperation operationName₁ fn cfg).2.2 =
        (retryOperation operationName₂ gn cfg).2.2
    ∧ (retryOperation operationName₁ fn cfg).1.isOk =
        (retryOperation operationName₂ gn cfg).1.isOk := by
  obtain ⟨hn₁, hs₁, ho₁⟩ := retryOperation_proj operationName₁ fn cfg
  obtain ⟨hn₂, hs₂, ho₂⟩ := retryOperation_proj operationName₂ gn cfg
  obtain ⟨pn, ps, po⟩ :=
    retryLoop_pattern fn gn cfg.initialDelayMs cfg.maxDelayMs hpat
      cfg.attempts 0 none none
  refine ⟨?_, by rw [hn₁, hn₂, pn], by rw [hs₁, hs₂, ps], by rw [ho₁, ho₂, po]⟩
  rw [hn₁]
  exact retryLoop_count_ge fn cfg.initialDelayMs cfg.maxDelayMs (j + 1) 0
    cfg.attempts none
    (fun i hi => by
      rw [Nat.zero_add, hfail i (by omega)]
      rfl)
    hj

/-- Witness for C4: a run failing on attempt 0 with a rate-limit-shaped
error versus the same pattern failing with a generic error. -/
theorem execute_retry_kind_independent_witness :
    (0 : Nat) + 1 < (RetryConfig.mk 5 500 8000).attempts
    ∧ 0 + 2 ≤ (retryOperation "getSignaturesForAddress"
        (fun i => if i = 0 then (Except.error (AppError.jsError
          "429 Too Many Requests") : Except AppError Int) else Except.ok 7)
        (RetryConfig.mk 5 500 8000)).2.1
    ∧ (retryOperation "getSignaturesForAddress"
        (fun i => if i = 0 then (Except.error (AppError.jsError
          "429 Too Many Requests") : Except AppError Int) else Except.ok 7)
        (RetryConfig.mk 5 500 8000)).2.1
      = (retryOperation "getTransaction"
        (fun i => if i = 0 then (Except.error (AppError.jsError
          "Network failure") : Except AppError Int) else Except.ok 7)
        (RetryConfig.mk 5 500 8000)).2.1 := by
  have h := execute_retry_kind_independent Int "getSignaturesForAddress"
    "getTransaction" (RetryConfig.mk 5 500 8000)
    (fun i => if i = 0 then (Except.error (AppError.jsError
      "429 Too Many Requests") : Except AppError Int) else Except.ok 7)
    (fun i => if i = 0 then (Except.error (AppError.jsError
      "Network failure") : Except AppError Int) else Except.ok 7)
    (fun _ => AppError.jsError "429 Too Many Requests") 0
    (fun i hi => by
      interval_cases i
      rfl)
    (fun i => by cases i <;> rfl)
    (by decide)
  exact ⟨by decide, h.1, h.2.1⟩

/-- C9: the backoff delay before the retry that follows the failure of
0-based attempt `i` equals `min(initialDelay * 2 ^ i, maxDelay)` exactly,
and the attempt index restarts at 0 for each `retryOperation` invocation:
a run with `k` initial failures sleeps exactly the delays for
`i = 0, …, k-1`.  (`getRetryDelay` itself computes that formula for any
arguments.) -/
theorem backoff_delay_schedule (α : Type) (operationName : String)
    (cfg : RetryConfig) (fn : Nat → Except AppError α) (errf : Nat → AppError)
    (k : Nat) (v : α) (hfail : ∀ i, i < k → fn i = Except.error (errf i))
    (hok : fn k = Except.ok v) (hk : k < cfg.attempts) :
    (retryOperation operationName fn cfg).2.2
      = (List.range k).map
          (fun i => min (cfg.initialDelayMs * 2 ^ i) cfg.maxDelayMs)
    ∧ ∀ attempt d0 dmax, getRetryDelay attempt d0 dmax = min (d0 * 2 ^ attempt) dmax := by
  have hloop := retryLoop_succeeds fn errf cfg.initialDelayMs cfg.maxDelayMs v
    k 0 cfg.attempts none (fun i hi => by simpa using hfail i hi)
    (by simpa using hok) hk
  rw [retryOperation_of_loop_ok operationName hloop]
  refine ⟨?_, fun attempt d0 dmax => rfl⟩
  show delaysFrom cfg.initialDelayMs cfg.maxDelayMs 0 k = _
  rw [delaysFrom_eq_map]
  apply List.map_congr_left
  intro a _
  show getRetryDelay (0 + a) cfg.initialDelayMs cfg.maxDelayMs = _
  rw [Nat.zero_add]
  rfl

/-- Witness for C9: three initial failures under the default policy sleep
500ms, 1000ms, 2000ms. -/
theorem backoff_delay_schedule_witness :
    (3 : Nat) < (RetryConfig.mk 5 500 8000).attempts
    ∧ (retryOperation "getSignaturesForAddress"
        (fun i => if i < 3 then (Except.error (AppError.jsError "429") :
          Except AppError Int) else Except.ok 0)
        (RetryConfig.mk 5 500 8000)).2.2 = [500, 1000, 2000] := by
  have h := backoff_delay_schedule Int "getSignaturesForAddress"
    (RetryConfig.mk 5 500 8000)
    (fun i => if i < 3 then (Except.error (AppError.jsError "429") :
      Except AppError Int) else Except.ok 0)
    (fun _ => AppError.jsError "429") 3 0 (fun i hi => by simp [hi]) (by simp)
    (by decide)
  refine ⟨by decide, ?_⟩
  rw [h.1]
  decide

/-- C10: when every attempt fails, `retryOperation` computes the backoff
delay and performs the backoff sleep after the final failed attempt too:
with `attempts = N` and every invocation failing, exactly `N` sleeps
occur (the delays for attempt indices `0, …, N-1`), not `N - 1`. -/
theorem final_attempt_backoff_sleeps (α : Type) (operationName : String)
    (cfg : RetryConfig) (errf : Nat → AppError) :
    (retryOperation operationName
        (fun i => (Except.error (errf i) : Except AppError α)) cfg).2.2
      = (List.range cfg.attempts).map
          (fun i => getRetryDelay i cfg.initialDelayMs cfg.maxDelayMs)
    ∧ (retryOperation operationName
        (fun i => (Except.error (errf i) : Except AppError α)) cfg).2.2.length
      = cfg.attempts := by
  obtain ⟨hn, hs, ho⟩ := retryOperation_proj operationName
    (fun i => (Except.error (errf i) : Except AppError α)) cfg
  cases hA : cfg.attempts with
  | zero =>
    rw [hs, hA]
    exact ⟨rfl, rfl⟩
  | succ r =>
    rw [hs, hA, retryLoop_allFail _ errf _ _ (fun i => rfl) r 0 none]
    show delaysFrom cfg.initialDelayMs cfg.maxDelayMs 0 (r + 1) = _
      ∧ (delaysFrom cfg.initialDelayMs cfg.maxDelayMs 0 (r + 1)).length = r + 1
    rw [delaysFrom_eq_map]
    constructor
    · apply List.map_congr_left
      intro a _
      rw [Nat.zero_add]
    · simp

/-- C5: the timestamp check of `fetchBlockTime` sits outside the retry
boundary: once the first successful fetch (after `j` failed attempts)
returns a record whose timestamp field is absent, the resolver fails with
`MissingBlockTimeError(signature)` after exactly `j + 1` invocations —
the fetch of the record is not retried — and the operation run inside the
retry loop never produces a `MissingBlockTimeError` itself. -/
theorem resolveTimestamp_missing_timestamp (signature : String)
    (service : Nat → Except String (Option VersionedTransactionResponse))
    (cfg : RetryConfig) (errf : Nat → AppError) (j : Nat)
    (tx : VersionedTransactionResponse)
    (hfail : ∀ i, i < j →
      getTransactionOp signature service i = Except.error (errf i))
    (hsucc : service j = Except.ok (some tx)) (hmiss : tx.blockTime = none)
    (hj : j < cfg.attempts) :
    (fetchBlockTime signature service cfg).1
      = Except.error (AppError.missingBlockTime signature)
    ∧ (fetchBlockTime signature service cfg).2.1 = j + 1
    ∧ ∀ i s, getTransactionOp signature service i ≠
        Except.error (AppError.missingBlockTime s) := by
  have hop : getTransactionOp signature service j = Except.ok tx := by
    unfold getTransactionOp
    rw [hsucc]
  have hloop := retryLoop_succeeds (getTransactionOp signature service) errf
    cfg.initialDelayMs cfg.maxDelayMs tx j 0 cfg.attempts none
    (fun i hi => by simpa using hfail i hi) (by simpa using hop) hj
  have hro := retryOperation_of_loop_ok "getTransaction" hloop
  have hfb : fetchBlockTime signature service cfg =
      (Except.error (AppError.missingBlockTime signature), j + 1,
        delaysFrom cfg.initialDelayMs cfg.maxDelayMs 0 j) := by
    unfold fetchBlockTime
    rw [hro]
    simp [hmiss]
  refine ⟨by rw [hfb], by rw [hfb], ?_⟩
  intro i s
  unfold getTransactionOp
  cases hsi : service i with
  | error m => simp
  | ok o =>
    cases o with
    | none => simp
    | some t => simp

/-- Witness for C5: a service whose very first call returns a record with
no timestamp; the resolver fails with `MissingBlockTimeError` after one
single fetch. -/
theorem resolveTimestamp_missing_timestamp_witness :
    (0 : Nat) < (RetryConfig.mk 5 500 8000).attempts
    ∧ (fetchBlockTime "testSig123"
        (fun _ => Except.ok (some (VersionedTransactionResponse.mk 12345 none)))
        (RetryConfig.mk 5 500 8000)).1
      = Except.error (AppError.missingBlockTime "testSig123")
    ∧ (fetchBlockTime "testSig123"
        (fun _ => Except.ok (some (VersionedTransactionResponse.mk 12345 none)))
        (RetryConfig.mk 5 500 8000)).2.1 = 0 + 1 := by
  have h := resolveTimestamp_missing_timestamp "testSig123"
    (fun _ => Except.ok (some (VersionedTransactionResponse.mk 12345 none)))
    (RetryConfig.mk 5 500 8000) (fun _ => AppError.jsError "unused") 0
    (VersionedTransactionResponse.mk 12345 none)
    (fun i hi => absurd hi (by omega)) rfl rfl (by decide)
  exact ⟨by decide, h.1, h.2.1⟩

/-- C6: the endpoint failover loop tries endpoints strictly in list
order, running the scan-then-resolve pipeline against each, and returns
the first endpoint's success immediately, attempting no endpoint beyond
it: with a failing prefix `pre` and a succeeding endpoint `x`, exactly
`pre ++ [x]` is attempted and `x`'s timestamp is returned, whatever
endpoints follow. -/
theorem failover_first_success (scan : String → Except AppError String)
    (resolve : String → String → Except AppError Int) (pre post : List String)
    (x : String) (t : Int) (errf : String → AppError)
    (hpre : ∀ e ∈ pre, twoStepPipeline scan resolve e = Except.error (errf e))
    (hx : twoStepPipeline scan resolve x = Except.ok t) :
    resolveFirstTimestamp (twoStepPipeline scan resolve) (pre ++ x :: post)
      = (Except.ok t, pre ++ [x]) := by
  unfold resolveFirstTimestamp
  rw [endpointLoop_skip_failing (twoStepPipeline scan resolve) errf pre
    (x :: post) none hpre]
  rw [endpointLoop_cons_ok post _ hx]

/-- Witness for C6: three endpoints of which the first two fail and the
third succeeds; exactly endpoints 1, 2, 3 are attempted and the third's
timestamp is returned. -/
theorem failover_first_success_witness :
    twoStepPipeline
        (fun u => if u = "e3" then Except.ok "sig"
          else Except.error (AppError.jsError "down"))
        (fun _ _ => Except.ok 1700000000) "e3" = Except.ok 1700000000
    ∧ resolveFirstTimestamp
        (twoStepPipeline
          (fun u => if u = "e3" then Except.ok "sig"
            else Except.error (AppError.jsError "down"))
          (fun _ _ => Except.ok 1700000000)) ["e1", "e2", "e3"]
      = (Except.ok 1700000000, ["e1", "e2", "e3"]) := by
  have h := failover_first_success
    (fun u => if u = "e3" then Except.ok "sig"
      else Except.error (AppError.jsError "down"))
    (fun _ _ => Except.ok 1700000000) ["e1", "e2"] [] "e3" 1700000000
    (fun _ => AppError.jsError "down")
    (fun e he => by fin_cases he <;> rfl) rfl
  exact ⟨rfl, h⟩

/-- C7: when every endpoint fails, the failover loop ends with
`AllEndpointsFailed` whose `lastFailure` is exactly the last endpoint's
failure value — the triggering failure's kind and message are preserved
unchanged. -/
theorem failover_all_endpoints_failed (scan : String → Except AppError String)
    (resolve : String → String → Except AppError Int)
    (endpoints : List String) (errf : String → AppError) (l : String)
    (hall : ∀ e ∈ endpoints,
      twoStepPipeline scan resolve e = Except.error (errf e))
    (hlast : endpoints.getLast? = some l) :
    resolveFirstTimestamp (twoStepPipeline scan resolve) endpoints
      = (Except.error (FailoverFailure.allEndpointsFailed (some (errf l))),
        endpoints) := by
  unfold resolveFirstTimestamp
  rw [endpointLoop_allFail (twoStepPipeline scan resolve) errf endpoints
    none hall, hlast]

/-- Witness for C7: three endpoints that all fail, each with its own
error; the reported `lastFailure` is the third endpoint's failure. -/
theorem failover_all_endpoints_failed_witness :
    (["e1", "e2", "e3"] : List String).getLast? = some "e3"
    ∧ resolveFirstTimestamp
        (twoStepPipeline (fun u => Except.error (AppError.jsError u))
          (fun _ _ => Except.ok 0)) ["e1", "e2", "e3"]
      = (Except.error (FailoverFailure.allEndpointsFailed
          (some (AppError.jsError "e3"))), ["e1", "e2", "e3"]) := by
  have h := failover_all_endpoints_failed
    (fun u => Except.error (AppError.jsError u)) (fun _ _ => Except.ok 0)
    ["e1", "e2", "e3"] (fun u => AppError.jsError u) "e3"
    (fun e he => rfl) rfl
  exact ⟨rfl, h⟩

/-- C8 counterexample: with a caller override present and a dedicated
endpoint configured, `getEffectiveRpcEndpoints` returns the override
alone — it does not return override, dedicated and defaults together in
priority order, so the claim fails as stated. -/
theorem endpoint_priority_counterexample :
    getEffectiveRpcEndpoints
        (AppConfigEndpoints.mk ["https://api.mainnet-beta.solana.com",
          "https://solana-api.projectserum.com", "https://api.rpcpool.com"]
          (some "https://rpc.helius.xyz/?api-key=K")) (some "https://my.rpc")
      = ["https://my.rpc"]
    ∧ getEffectiveRpcEndpoints
        (AppConfigEndpoints.mk ["https://api.mainnet-beta.solana.com",
          "https://solana-api.projectserum.com", "https://api.rpcpool.com"]
          (some "https://rpc.helius.xyz/?api-key=K")) (some "https://my.rpc")
      ≠ "https://my.rpc" :: "https://rpc.helius.xyz/?api-key=K" ::
          ["https://api.mainnet-beta.solana.com",
            "https://solana-api.projectserum.com", "https://api.rpcpool.com"] := by
  exact ⟨rfl, by decide⟩

/-- C8 amended: the three sources are mutually exclusive alternatives
consulted in priority order — a (nonempty) caller override replaces the
entire list; otherwise a configured (nonempty) dedicated endpoint is
placed first, followed by the defaults with any duplicate of it removed;
otherwise the defaults are returned unchanged. -/
theorem endpoint_priority_amended (cfg : AppConfigEndpoints) (c h : String)
    (hc : c ≠ "") (hh : h ≠ "") :
    getEffectiveRpcEndpoints cfg (some c) = [c]
    ∧ (cfg.heliusRpcUrl = some h →
        getEffectiveRpcEndpoints cfg none =
          h :: cfg.defaultRpcEndpoints.filter (fun url => url != h))
    ∧ (cfg.heliusRpcUrl = none →
        getEffectiveRpcEndpoints cfg none = cfg.defaultRpcEndpoints) := by
  refine ⟨?_, ?_, ?_⟩
  · simp [getEffectiveRpcEndpoints, truthyStr, hc]
  · intro hhel
    simp [getEffectiveRpcEndpoints, truthyStr, hhel, hh]
  · intro hhel
    simp [getEffectiveRpcEndpoints, truthyStr, hhel]

/-- Witness for C8 amended: an override replaces the list; without an
override the dedicated endpoint is placed first and its duplicate among
the defaults is dropped. -/
theorem endpoint_priority_amended_witness :
    ("https://my.rpc" : String) ≠ "" ∧ ("hel" : String) ≠ ""
    ∧ getEffectiveRpcEndpoints (AppConfigEndpoints.mk ["d1", "d2"]
        (some "hel")) (some "https://my.rpc") = ["https://my.rpc"]
    ∧ getEffectiveRpcEndpoints (AppConfigEndpoints.mk ["d1", "hel", "d2"]
        (some "hel")) none = ["hel", "d1", "d2"] := by
  have h1 := endpoint_priority_amended
    (AppConfigEndpoints.mk ["d1", "d2"] (some "hel")) "https://my.rpc" "hel"
    (by decide) (by decide)
  have h2 := endpoint_priority_amended
    (AppConfigEndpoints.mk ["d1", "hel", "d2"] (some "hel")) "x" "hel"
    (by decide) (by decide)
  refine ⟨by decide, by decide, h1.1, ?_⟩
  rw [h2.2.1 rfl]
  decide

/-- C1 counterexample: a nonempty (and short) first page whose only
record carries the empty string as its signature makes the scan fail
with `NoSignaturesFoundError` — because the `if (!earliestSig)` JS
truthiness check treats the empty-string signature as absent — although
the very first page fetched is not empty, so the claim fails as stated. -/
theorem findOldest_counterexample :
    findFirstSignature "pid" 1000 [[ConfirmedSignatureInfo.mk "" 0 none]]
      = some (Except.error (AppError.noSignaturesFound "pid"
          (some "Failed to determine earliest signature after pagination attempts.")))
    ∧ ([ConfirmedSignatureInfo.mk "" 0 none] :
        List ConfirmedSignatureInfo) ≠ [] := by
  exact ⟨rfl, by decide⟩

/-- C1 amended: provided every served record has a nonempty signature,
the scan returns the last record of the last nonempty page fetched —
both when it stops at a page strictly shorter than `limit` and when an
empty page follows a nonempty one — and fails with
`NoSignaturesFoundError` exactly in the remaining case, namely when the
very first page fetched is empty. -/
theorem findOldest_amended (programId : String) (limit : Nat)
    (fullPages : List (List ConfirmedSignatureInfo))
    (terminal : List ConfirmedSignatureInfo)
    (hfull : ∀ p ∈ fullPages, p.getLast? ≠ none ∧ ¬ p.length < limit)
    (hsig : ∀ p ∈ fullPages ++ [terminal], ∀ rec ∈ p, rec.signature ≠ "") :
    (∀ r, terminal.getLast? = some r → terminal.length < limit →
      findFirstSignature programId limit (fullPages ++ [terminal])
        = some (Except.ok r.signature))
    ∧ (∀ lp r, terminal = [] → fullPages.getLast? = some lp →
        lp.getLast? = some r →
        findFirstSignature programId limit (fullPages ++ [terminal])
          = some (Except.ok r.signature))
    ∧ (terminal = [] → fullPages = [] →
        findFirstSignature programId limit (fullPages ++ [terminal])
          = some (Except.error (AppError.noSignaturesFound programId none))) := by
  have hpre := findFirstSignatureLoop_skip_full_pages programId limit fullPages
    [terminal] none hfull
  refine ⟨?_, ?_, ?_⟩
  · intro r hr hlen
    have hrs : r.signature ≠ "" :=
      hsig terminal (by simp) r (mem_of_getLast?_eq hr)
    unfold findFirstSignature
    rw [hpre]
    simp only [findFirstSignatureLoop, hr, if_pos hlen]
    simp [finishScan, hrs]
  · intro lp r ht hlp hr
    have hrs : r.signature ≠ "" :=
      hsig lp (List.mem_append_left _ (mem_of_getLast?_eq hlp)) r
        (mem_of_getLast?_eq hr)
    have hacc : accAfter fullPages none = some r.signature :=
      accAfter_getLast fullPages none lp r (fun p hp => (hfull p hp).1) hlp hr
    unfold findFirstSignature
    rw [hpre, hacc]
    subst ht
    simp [findFirstSignatureLoop, truthyStr, finishScan, hrs]
  · intro ht hf
    subst ht
    subst hf
    simp [findFirstSignature, findFirstSignatureLoop, truthyStr]

/-- Witness for C1 amended: one full page of two records followed by a
short page of one record; the scan returns that final record's
signature. -/
theorem findOldest_amended_witness :
    findFirstSignature "p" 2
        [[ConfirmedSignatureInfo.mk "s2" 2 none,
          ConfirmedSignatureInfo.mk "s1" 1 none],
          [ConfirmedSignatureInfo.mk "s0" 0 none]]
      = some (Except.ok "s0") := by
  have h := findOldest_amended "p" 2
    [[ConfirmedSignatureInfo.mk "s2" 2 none,
      ConfirmedSignatureInfo.mk "s1" 1 none]]
    [ConfirmedSignatureInfo.mk "s0" 0 none] (by decide) (by decide)
  exact h.1 (ConfirmedSignatureInfo.mk "s0" 0 none) rfl (by decide)

end Kinetic
